import Mathlib

/-!
Verification of the `go-errmgt` structured-error library against its design
specification. The repository has two generations of the same package:

* `errmgt.go` — the simpler variant: an integer `ErrorType` tag, a message,
  an optional cause, and a `map[string]interface{}` context.
* `v1/errmgt.go` — the richer variant: a string `ErrorType`, a `Code`,
  optional `Details`, an optional cause, a `map[string]string` context, a
  `Retryable` flag and a `StatusCode`.

The embedding below models Go `error` values as a tree (`GoError`): leaves
are opaque `errors.errorString` values (tagged with an allocation id so that
two distinct `errors.New` results with equal text stay distinguishable),
`fmt.Errorf("%s: %w", ...)` wrappers, and `*ManagedError` values.  A Go
struct holds its cause as a nillable `error` field; the embedding splits the
managed-error node into a with-cause and a without-cause constructor so that
recursion over the tree is structural; `ManagedError` itself is the flat
record exactly as in the source, and `ManagedError.toErr` injects it into
the tree.  Go maps are modelled as association lists with last-write-wins
upsert; a nil map is `none`, an initialized empty map is `some []`.
-/

/-- Models the `interface{}` values this library's callers put into the
simpler variant's context map and pass to `Wrapf`: the examples and tests
only ever use strings and integers. -/
inductive GoVal where
  | vstr (s : String)
  | vint (n : Int)
deriving DecidableEq, Repr

/-- Go map assignment `m[k] = v`: overwrite the binding when the key is
present, otherwise append a fresh binding. -/
def mapUpsert {α : Type} (m : List (String × α)) (k : String) (v : α) :
    List (String × α) :=
  if m.any (fun p => p.1 == k) then
    m.map (fun p => if p.1 == k then (k, v) else p)
  else
    m ++ [(k, v)]

/-- Go map lookup `m[k]`. -/
def mapGet {α : Type} (m : List (String × α)) (k : String) : Option α :=
  (m.find? (fun p => p.1 == k)).map (fun p => p.2)

/-- Well-formedness of a Go map modelled as an association list: keys are
pairwise distinct (true of every list a real Go map can denote). -/
def keysNodup {α : Type} (m : List (String × α)) : Prop :=
  (m.map Prod.fst).Nodup

/-- Well-formedness of a nillable Go map: the nil map is well formed, and a
non-nil map has pairwise-distinct keys. -/
def ctxWF {α : Type} : Option (List (String × α)) → Prop
  | none => True
  | some m => keysNodup m

/-- A Go `%s`/`%d`/`%%` format interpreter: models the `fmt.Sprintf` verbs
this library's callers and tests exercise (`Wrapf("... %s:%d ...")`). -/
def sprintfAux : List Char → List GoVal → List Char
  | [], _ => []
  | '%' :: 's' :: rest, (GoVal.vstr s) :: args => s.data ++ sprintfAux rest args
  | '%' :: 'd' :: rest, (GoVal.vint n) :: args => (toString n).data ++ sprintfAux rest args
  | '%' :: '%' :: rest, args => '%' :: sprintfAux rest args
  | c :: rest, args => c :: sprintfAux rest args

/-- `fmt.Sprintf(format, args...)` for the verbs modelled by `sprintfAux`. -/
def goSprintf (format : String) (args : List GoVal) : String :=
  ⟨sprintfAux format.data args⟩

namespace Errmgt

/-! ### The simpler variant: `errmgt.go` -/

/-- `type ErrorType int`. -/
abbrev ErrorType := Int

def ValidationError : ErrorType := 0
def NotFoundError : ErrorType := 1
def PermissionError : ErrorType := 2
def InternalError : ErrorType := 3
def ExternalError : ErrorType := 4

/-- `func (et ErrorType) String() string`. -/
def errorTypeString (et : ErrorType) : String :=
  if et = ValidationError then "ValidationError"
  else if et = NotFoundError then "NotFoundError"
  else if et = PermissionError then "PermissionError"
  else if et = InternalError then "InternalError"
  else if et = ExternalError then "ExternalError"
  else "UnknownError"

/-- Context map of the simpler variant: `map[string]interface{}`. -/
abbrev Ctx := List (String × GoVal)

/-- The fields of a `*ManagedError` other than its cause (the cause is
carried by the `GoError` tree constructors to keep recursion structural). -/
structure MData where
  Type_ : ErrorType
  Message : String
  Context : Option Ctx
deriving DecidableEq, Repr

/-- A Go `error` value in the simpler variant's world: an opaque
`errors.errorString` (with an allocation id), or a `*ManagedError` with or
without a cause. -/
inductive GoError where
  | errorString (id : Nat) (msg : String)
  | managed (d : MData) (cause : GoError)
  | managedRoot (d : MData)
deriving DecidableEq, Repr

/-- The `ManagedError` struct exactly as declared in `errmgt.go`:
`Type`, `Message`, `Cause error`, `Context map[string]interface{}`
(`Cause = none` is a nil cause, `Context = none` a nil map). -/
structure ManagedError where
  Type_ : ErrorType
  Message : String
  Cause : Option GoError
  Context : Option Ctx
deriving DecidableEq, Repr

/-- View a `*ManagedError` as a Go `error` value. -/
def ManagedError.toErr (e : ManagedError) : GoError :=
  match e.Cause with
  | some c => .managed ⟨e.Type_, e.Message, e.Context⟩ c
  | none => .managedRoot ⟨e.Type_, e.Message, e.Context⟩

/-- `func (me *ManagedError) Error() string` — dispatched over a whole
error tree (the `%v` verb on the cause calls its own `Error`). -/
def GoError.Error : GoError → String
  | .errorString _ m => m
  | .managed d c =>
      "[" ++ errorTypeString d.Type_ ++ "] " ++ d.Message ++ ": " ++ c.Error
  | .managedRoot d =>
      "[" ++ errorTypeString d.Type_ ++ "] " ++ d.Message

/-- `func (me *ManagedError) Error() string` on the struct itself. -/
def ManagedError.Error (e : ManagedError) : String :=
  match e.Cause with
  | some c =>
      "[" ++ errorTypeString e.Type_ ++ "] " ++ e.Message ++ ": " ++ c.Error
  | none =>
      "[" ++ errorTypeString e.Type_ ++ "] " ++ e.Message

/-- `func New(errorType ErrorType, message string) *ManagedError`. -/
def New (errorType : ErrorType) (message : String) : ManagedError :=
  ⟨errorType, message, none, some []⟩

/-- `func Wrap(err error, errorType ErrorType, message string) *ManagedError`. -/
def Wrap (err : Option GoError) (errorType : ErrorType) (message : String) :
    ManagedError :=
  ⟨errorType, message, err, some []⟩

/-- `func (me *ManagedError) WithContext(key string, value interface{})`.
The source assigns into `me.Context` without a nil check; assignment into a
nil Go map panics, which the embedding reports as `none`. -/
def ManagedError.WithContext (e : ManagedError) (key : String) (value : GoVal) :
    Option ManagedError :=
  match e.Context with
  | none => none
  | some m => some { e with Context := some (mapUpsert m key value) }

/-- A fluent chain `e.WithContext(k₁,v₁).WithContext(k₂,v₂)...` (a panic at
any step propagates as `none`). -/
def applyWithContexts : ManagedError → List (String × GoVal) → Option ManagedError
  | e, [] => some e
  | e, (k, v) :: rest =>
      match e.WithContext k v with
      | none => none
      | some e' => applyWithContexts e' rest

end Errmgt

namespace ErrmgtV1

/-! ### The richer variant: `v1/errmgt.go` -/

/-- `type ErrorType string`. -/
abbrev ErrorType := String

def ValidationError : ErrorType := "validation"
def BusinessError : ErrorType := "business"
def SystemError : ErrorType := "system"
def ExternalError : ErrorType := "external"

/-- Context map of the richer variant: `map[string]string`. -/
abbrev Ctx := List (String × String)

/-- The fields of a `*ManagedError` other than its cause. -/
structure MData where
  Code : String
  Message : String
  Details : String
  Context : Option Ctx
  Type_ : ErrorType
  StatusCode : Int
  Retryable : Bool
deriving DecidableEq, Repr

/-- A Go `error` value in the richer variant's world: an opaque
`errors.errorString` (with an allocation id), a `fmt.Errorf("%s: %w", pre,
inner)` wrapper, or a `*ManagedError` with or without a cause. -/
inductive GoError where
  | errorString (id : Nat) (msg : String)
  | wrapped (pre : String) (inner : GoError)
  | managed (d : MData) (cause : GoError)
  | managedRoot (d : MData)
deriving DecidableEq, Repr

/-- The `ManagedError` struct exactly as declared in `v1/errmgt.go`
(`Cause = none` is a nil cause, `Context = none` a nil map). -/
structure ManagedError where
  Code : String
  Message : String
  Details : String
  Cause : Option GoError
  Context : Option Ctx
  Type_ : ErrorType
  StatusCode : Int
  Retryable : Bool
deriving DecidableEq, Repr

/-- Reassemble the struct denoted by a managed node of the error tree. -/
def mkME (d : MData) (cause : Option GoError) : ManagedError :=
  ⟨d.Code, d.Message, d.Details, cause, d.Context, d.Type_, d.StatusCode, d.Retryable⟩

/-- The cause-less field block of a struct. -/
def ManagedError.data (e : ManagedError) : MData :=
  ⟨e.Code, e.Message, e.Details, e.Context, e.Type_, e.StatusCode, e.Retryable⟩

/-- View a `*ManagedError` as a Go `error` value. -/
def ManagedError.toErr (e : ManagedError) : GoError :=
  match e.Cause with
  | some c => .managed e.data c
  | none => .managedRoot e.data

/-- `func (e *ManagedError) Error() string` on the raw fields: prefer
`Details` when non-empty, never render the cause. -/
def MData.render (d : MData) : String :=
  if d.Details ≠ "" then
    "[" ++ d.Type_ ++ ":" ++ d.Code ++ "] " ++ d.Message ++ ": " ++ d.Details
  else
    "[" ++ d.Type_ ++ ":" ++ d.Code ++ "] " ++ d.Message

/-- `Error()` dispatched over a whole error tree (a `fmt.Errorf("%s: %w")`
wrapper renders as its text followed by the wrapped error's text). -/
def GoError.Error : GoError → String
  | .errorString _ m => m
  | .wrapped pre inner => pre ++ ": " ++ inner.Error
  | .managed d _ => d.render
  | .managedRoot d => d.render

/-- `func (e *ManagedError) Error() string` on the struct itself. -/
def ManagedError.Error (e : ManagedError) : String :=
  if e.Details ≠ "" then
    "[" ++ e.Type_ ++ ":" ++ e.Code ++ "] " ++ e.Message ++ ": " ++ e.Details
  else
    "[" ++ e.Type_ ++ ":" ++ e.Code ++ "] " ++ e.Message

/-- `func (e *ManagedError) Unwrap() error`. -/
def ManagedError.Unwrap (e : ManagedError) : Option GoError :=
  e.Cause

/-- `errors.Unwrap` over the error tree: `errorString` has no `Unwrap`
method, a `fmt.Errorf("%s: %w")` wrapper yields the wrapped error, and a
`*ManagedError` yields its (possibly nil) `Cause`. -/
def goUnwrap : GoError → Option GoError
  | .errorString _ _ => none
  | .wrapped _ inner => some inner
  | .managed _ c => some c
  | .managedRoot _ => none

/-- The `Unwrap` chain of an error: the error itself followed by the chain
of its cause, as walked by `errors.Is` / `errors.As`. -/
def chain : GoError → List GoError
  | .errorString i m => [.errorString i m]
  | .wrapped p inner => .wrapped p inner :: chain inner
  | .managed d c => .managed d c :: chain c
  | .managedRoot d => [.managedRoot d]

/-- `errors.As(err, &m)` for a `**ManagedError` target on a non-nil error:
walk the `Unwrap` chain and return the first `*ManagedError` found. -/
def errorsAsManaged : GoError → Option ManagedError
  | .errorString _ _ => none
  | .wrapped _ inner => errorsAsManaged inner
  | .managed d c => some (mkME d (some c))
  | .managedRoot d => some (mkME d none)

/-- `errors.As(err, &m)` on a nillable error value. -/
def errorsAs (err : Option GoError) : Option ManagedError :=
  err.bind errorsAsManaged

/-- `errors.Is(err, target)` for a non-nil `err` and non-nil `target`: at
each chain element, compare with `==`, consult the element's own
`Is` method when it has one (only `*ManagedError` does; its body — compare
`Type`/`Code` when the target chain holds a `*ManagedError`, otherwise
`errors.Is(Cause, target)` — is inlined here), then unwrap and continue. -/
def errorsIsGo : GoError → GoError → Bool
  | .errorString i m, t => decide (GoError.errorString i m = t)
  | .wrapped p inner, t =>
      decide (GoError.wrapped p inner = t) || errorsIsGo inner t
  | .managed d c, t =>
      decide (GoError.managed d c = t) ||
      (match errorsAsManaged t with
       | some m => d.Type_ == m.Type_ && d.Code == m.Code
       | none => errorsIsGo c t) ||
      errorsIsGo c t
  | .managedRoot d, t =>
      decide (GoError.managedRoot d = t) ||
      (match errorsAsManaged t with
       | some m => d.Type_ == m.Type_ && d.Code == m.Code
       | none => false)

/-- `errors.Is` on a nillable error value (the target is non-nil). -/
def errorsIs (err : Option GoError) (target : GoError) : Bool :=
  match err with
  | none => false
  | some g => errorsIsGo g target

/-- `func (e *ManagedError) Is(target error) bool`. -/
def ManagedError.Is (e : ManagedError) (target : Option GoError) : Bool :=
  match target with
  | none => false
  | some t =>
      match errorsAsManaged t with
      | some m => e.Type_ == m.Type_ && e.Code == m.Code
      | none => errorsIs e.Cause t

/-- `func NewError(errType ErrorType, code, message string) *ManagedError`. -/
def NewError (errType : ErrorType) (code message : String) : ManagedError :=
  { Code := code, Message := message, Details := "", Cause := none,
    Context := some [], Type_ := errType, StatusCode := 0, Retryable := false }

/-- `func NewErrorWithCause(errType ErrorType, code, message string, cause error)`. -/
def NewErrorWithCause (errType : ErrorType) (code message : String)
    (cause : Option GoError) : ManagedError :=
  { Code := code, Message := message, Details := "", Cause := cause,
    Context := some [], Type_ := errType, StatusCode := 0, Retryable := false }

/-- `func (e *ManagedError) WithDetails(details string) *ManagedError`. -/
def ManagedError.WithDetails (e : ManagedError) (details : String) : ManagedError :=
  { e with Details := details }

/-- `func (e *ManagedError) WithContext(key, value string) *ManagedError`:
initializes the map when it is nil, then upserts. -/
def ManagedError.WithContext (e : ManagedError) (key value : String) : ManagedError :=
  match e.Context with
  | none => { e with Context := some (mapUpsert [] key value) }
  | some m => { e with Context := some (mapUpsert m key value) }

/-- `func (e *ManagedError) WithRetryable(retryable bool) *ManagedError`. -/
def ManagedError.WithRetryable (e : ManagedError) (retryable : Bool) : ManagedError :=
  { e with Retryable := retryable }

/-- `func (e *ManagedError) WithStatusCode(code int) *ManagedError`. -/
def ManagedError.WithStatusCode (e : ManagedError) (code : Int) : ManagedError :=
  { e with StatusCode := code }

/-- `func IsRetryable(err error) bool`. -/
def IsRetryable (err : Option GoError) : Bool :=
  match errorsAs err with
  | some m => m.Retryable
  | none => false

/-- `func GetContext(err error) map[string]string` (`none` is the nil map). -/
def GetContext (err : Option GoError) : Option Ctx :=
  match errorsAs err with
  | some m => m.Context
  | none => none

/-- `func Wrap(err error, message string) error` =
`fmt.Errorf("%s: %w", message, err)` for a non-nil `err`. -/
def Wrap (err : GoError) (message : String) : GoError :=
  .wrapped message err

/-- `func Wrapf(err error, format string, args ...interface{}) error` =
`fmt.Errorf("%s: %w", fmt.Sprintf(format, args...), err)`. -/
def Wrapf (err : GoError) (format : String) (args : List GoVal) : GoError :=
  .wrapped (goSprintf format args) err

/-- Whether an error value is itself a `*ManagedError` (the head of the
chain, before any unwrapping). -/
def isManagedErr : GoError → Bool
  | .managed _ _ => true
  | .managedRoot _ => true
  | _ => false

/-- The `*ManagedError` struct denoted by one chain element, if it is one
(no unwrapping) — the per-element test `errors.As` performs while walking. -/
def topManaged : GoError → Option ManagedError
  | .managed d c => some (mkME d (some c))
  | .managedRoot d => some (mkME d none)
  | _ => none

/-- One step of a fluent builder chain on a `*ManagedError`. -/
inductive Mutation where
  | details (s : String)
  | context (k v : String)
  | retryable (b : Bool)
  | statusCode (n : Int)
deriving DecidableEq, Repr

/-- Apply one fluent mutation. -/
def applyMutation (e : ManagedError) : Mutation → ManagedError
  | .details s => e.WithDetails s
  | .context k v => e.WithContext k v
  | .retryable b => e.WithRetryable b
  | .statusCode n => e.WithStatusCode n

/-- Apply a whole fluent chain `e.WithX(..).WithY(..)...` left to right. -/
def applyMutations (e : ManagedError) (ms : List Mutation) : ManagedError :=
  ms.foldl applyMutation e

end ErrmgtV1

/-! ## Lemmas about the association-list model of Go maps -/

theorem find?_mapReplace {α : Type} (m : List (String × α)) (k : String) (v : α) :
    (m.map (fun p => if p.1 == k then (k, v) else p)).find? (fun p => p.1 == k) =
      if m.any (fun p => p.1 == k) then some (k, v) else none := by
  induction m with
  | nil => rfl
  | cons p t ih =>
    by_cases hp : (p.1 == k) = true
    · rw [List.map_cons, if_pos hp,
        List.find?_cons_of_pos (p := fun q : String × α => q.1 == k) _ (beq_self_eq_true k),
        List.any_cons, hp, Bool.true_or, if_pos rfl]
    · have hp' : (p.1 == k) = false := Bool.not_eq_true _ ▸ hp
      rw [List.map_cons, if_neg hp,
        List.find?_cons_of_neg (p := fun q : String × α => q.1 == k) _ hp,
        List.any_cons, hp', Bool.false_or]
      exact ih

theorem find?_mapReplace_other {α : Type} (m : List (String × α)) (k k' : String)
    (v : α) (hk : k' ≠ k) :
    (m.map (fun p => if p.1 == k then (k, v) else p)).find? (fun p => p.1 == k') =
      m.find? (fun p => p.1 == k') := by
  have hkk : ¬ ((((k, v) : String × α).1 == k') = true) :=
    (Bool.not_eq_true _).symm ▸ beq_eq_false_iff_ne.mpr (Ne.symm hk)
  induction m with
  | nil => rfl
  | cons p t ih =>
    by_cases hp : (p.1 == k) = true
    · have h2 : ¬ ((p.1 == k') = true) := by
        rw [eq_of_beq hp]
        exact (Bool.not_eq_true _).symm ▸ beq_eq_false_iff_ne.mpr (Ne.symm hk)
      rw [List.map_cons, if_pos hp,
        List.find?_cons_of_neg (p := fun q : String × α => q.1 == k') _ hkk,
        List.find?_cons_of_neg (p := fun q : String × α => q.1 == k') _ h2]
      exact ih
    · by_cases hq : (p.1 == k') = true
      · rw [List.map_cons, if_neg hp,
          List.find?_cons_of_pos (p := fun q : String × α => q.1 == k') _ hq,
          List.find?_cons_of_pos (p := fun q : String × α => q.1 == k') _ hq]
      · rw [List.map_cons, if_neg hp,
          List.find?_cons_of_neg (p := fun q : String × α => q.1 == k') _ hq,
          List.find?_cons_of_neg (p := fun q : String × α => q.1 == k') _ hq]
        exact ih

theorem mapGet_upsert_self {α : Type} (m : List (String × α)) (k : String) (v : α) :
    mapGet (mapUpsert m k v) k = some v := by
  unfold mapUpsert mapGet
  by_cases h : m.any (fun p => p.1 == k) = true
  · rw [if_pos h, find?_mapReplace, if_pos h]
    rfl
  · have h' : m.any (fun p => p.1 == k) = false := Bool.not_eq_true _ ▸ h
    have hn : m.find? (fun p => p.1 == k) = none :=
      List.find?_eq_none.mpr (List.any_eq_false.mp h')
    rw [if_neg h, List.find?_append, hn,
      List.find?_cons_of_pos (p := fun q : String × α => q.1 == k) _ (beq_self_eq_true k),
      Option.none_or]
    rfl

theorem mapGet_upsert_other {α : Type} (m : List (String × α)) (k k' : String)
    (v : α) (hk : k' ≠ k) : mapGet (mapUpsert m k v) k' = mapGet m k' := by
  unfold mapUpsert mapGet
  by_cases h : m.any (fun p => p.1 == k) = true
  · rw [if_pos h, find?_mapReplace_other m k k' v hk]
  · have hkk : ¬ ((((k, v) : String × α).1 == k') = true) :=
      (Bool.not_eq_true _).symm ▸ beq_eq_false_iff_ne.mpr (Ne.symm hk)
    rw [if_neg h, List.find?_append,
      List.find?_cons_of_neg (p := fun q : String × α => q.1 == k') _ hkk,
      List.find?_nil, Option.or_none]

theorem countP_mapReplace {α : Type} (m : List (String × α)) (k : String) (v : α) :
    (m.map (fun p => if p.1 == k then (k, v) else p)).countP (fun p => p.1 == k) =
      m.countP (fun p => p.1 == k) := by
  induction m with
  | nil => rfl
  | cons p t ih =>
    by_cases hp : (p.1 == k) = true
    · rw [List.map_cons, if_pos hp, List.countP_cons, List.countP_cons, ih,
        beq_self_eq_true k, hp]
    · rw [List.map_cons, if_neg hp, List.countP_cons, List.countP_cons, ih]

theorem countP_upsert_self {α : Type} (m : List (String × α)) (k : String) (v : α)
    (h : m.countP (fun p => p.1 == k) ≤ 1) :
    (mapUpsert m k v).countP (fun p => p.1 == k) = 1 := by
  unfold mapUpsert
  by_cases ha : m.any (fun p => p.1 == k) = true
  · rw [if_pos ha, countP_mapReplace]
    have hpos : 0 < m.countP (fun p => p.1 == k) := by
      rcases List.any_eq_true.mp ha with ⟨x, hx, hpx⟩
      exact List.countP_pos_iff.mpr ⟨x, hx, hpx⟩
    omega
  · have ha' : m.any (fun p => p.1 == k) = false := Bool.not_eq_true _ ▸ ha
    have h0 : m.countP (fun p => p.1 == k) = 0 :=
      List.countP_eq_zero.mpr (List.any_eq_false.mp ha')
    rw [if_neg ha, List.countP_append, h0, List.countP_cons, List.countP_nil,
      if_pos (beq_self_eq_true k)]

theorem countP_le_one_of_keysNodup {α : Type} (m : List (String × α))
    (hm : keysNodup m) (k : String) : m.countP (fun p => p.1 == k) ≤ 1 := by
  induction m with
  | nil => simp
  | cons p t ih =>
    have hm' : (p.1 :: t.map Prod.fst).Nodup := hm
    rw [List.nodup_cons] at hm'
    obtain ⟨hnotin, hnd⟩ := hm'
    rw [List.countP_cons]
    by_cases hp : (p.1 == k) = true
    · have h0 : t.countP (fun q => q.1 == k) = 0 := by
        apply List.countP_eq_zero.mpr
        intro a ha hak
        apply hnotin
        rw [List.mem_map]
        exact ⟨a, ha, by rw [eq_of_beq hak, eq_of_beq hp]⟩
      rw [h0, if_pos hp]
    · rw [if_neg hp]
      have := ih hnd
      omega

/-! ## Lemmas about chain walking in the richer variant -/

theorem v1_mem_chain_self (g : ErrmgtV1.GoError) : g ∈ ErrmgtV1.chain g := by
  cases g <;> simp [ErrmgtV1.chain]

theorem v1_errorsAsManaged_toErr (e : ErrmgtV1.ManagedError) :
    ErrmgtV1.errorsAsManaged e.toErr = some e := by
  obtain ⟨co, ms, dt, cause, cx, ty, sc, rt⟩ := e
  cases cause <;> rfl

theorem v1_errorsAsManaged_eq_findSome (g : ErrmgtV1.GoError) :
    ErrmgtV1.errorsAsManaged g =
      (ErrmgtV1.chain g).findSome? ErrmgtV1.topManaged := by
  induction g with
  | errorString i m => rfl
  | wrapped p inner ih =>
      rw [ErrmgtV1.chain, List.findSome?_cons]
      exact ih
  | managed d c ih => rfl
  | managedRoot d => rfl

theorem v1_errorsAsManaged_eq_none_iff (g : ErrmgtV1.GoError) :
    ErrmgtV1.errorsAsManaged g = none ↔
      ∀ e ∈ ErrmgtV1.chain g, ErrmgtV1.isManagedErr e = false := by
  induction g with
  | errorString i m =>
      simp [ErrmgtV1.errorsAsManaged, ErrmgtV1.chain, ErrmgtV1.isManagedErr]
  | wrapped p inner ih =>
      simp [ErrmgtV1.errorsAsManaged, ErrmgtV1.chain, ErrmgtV1.isManagedErr, ih]
  | managed d c ih =>
      simp [ErrmgtV1.errorsAsManaged, ErrmgtV1.chain, ErrmgtV1.isManagedErr]
  | managedRoot d =>
      simp [ErrmgtV1.errorsAsManaged, ErrmgtV1.chain, ErrmgtV1.isManagedErr]

theorem v1_errorsIsGo_self (g : ErrmgtV1.GoError) :
    ErrmgtV1.errorsIsGo g g = true := by
  cases g <;> simp [ErrmgtV1.errorsIsGo]

theorem v1_errorsIsGo_managed_of_none (d : ErrmgtV1.MData)
    (c t : ErrmgtV1.GoError) (ht : ErrmgtV1.errorsAsManaged t = none) :
    ErrmgtV1.errorsIsGo (ErrmgtV1.GoError.managed d c) t =
      (decide (ErrmgtV1.GoError.managed d c = t) || ErrmgtV1.errorsIsGo c t) := by
  have h1 : ErrmgtV1.errorsIsGo (ErrmgtV1.GoError.managed d c) t =
      (decide (ErrmgtV1.GoError.managed d c = t) ||
       (match ErrmgtV1.errorsAsManaged t with
        | some m => d.Type_ == m.Type_ && d.Code == m.Code
        | none => ErrmgtV1.errorsIsGo c t) ||
       ErrmgtV1.errorsIsGo c t) := rfl
  rw [h1, ht]
  cases decide (ErrmgtV1.GoError.managed d c = t) <;>
    cases ErrmgtV1.errorsIsGo c t <;> rfl

theorem v1_errorsIsGo_managedRoot_of_none (d : ErrmgtV1.MData)
    (t : ErrmgtV1.GoError) (ht : ErrmgtV1.errorsAsManaged t = none) :
    ErrmgtV1.errorsIsGo (ErrmgtV1.GoError.managedRoot d) t =
      decide (ErrmgtV1.GoError.managedRoot d = t) := by
  have h1 : ErrmgtV1.errorsIsGo (ErrmgtV1.GoError.managedRoot d) t =
      (decide (ErrmgtV1.GoError.managedRoot d = t) ||
       (match ErrmgtV1.errorsAsManaged t with
        | some m => d.Type_ == m.Type_ && d.Code == m.Code
        | none => false)) := rfl
  rw [h1, ht]
  cases decide (ErrmgtV1.GoError.managedRoot d = t) <;> rfl

theorem v1_errorsIsGo_eq_mem_chain (t : ErrmgtV1.GoError)
    (ht : ErrmgtV1.errorsAsManaged t = none) (g : ErrmgtV1.GoError) :
    ErrmgtV1.errorsIsGo g t = true ↔ t ∈ ErrmgtV1.chain g := by
  induction g with
  | errorString i m =>
      have h1 : ErrmgtV1.errorsIsGo (ErrmgtV1.GoError.errorString i m) t =
          decide (ErrmgtV1.GoError.errorString i m = t) := rfl
      rw [h1, ErrmgtV1.chain]
      simp only [decide_eq_true_eq, List.mem_singleton]
      exact eq_comm
  | wrapped p inner ih =>
      have h1 : ErrmgtV1.errorsIsGo (ErrmgtV1.GoError.wrapped p inner) t =
          (decide (ErrmgtV1.GoError.wrapped p inner = t) ||
            ErrmgtV1.errorsIsGo inner t) := rfl
      rw [h1, ErrmgtV1.chain]
      simp only [Bool.or_eq_true, decide_eq_true_eq, List.mem_cons, ih]
      exact or_congr eq_comm Iff.rfl
  | managed d c ih =>
      rw [v1_errorsIsGo_managed_of_none d c t ht, ErrmgtV1.chain]
      simp only [Bool.or_eq_true, decide_eq_true_eq, List.mem_cons, ih]
      exact or_congr eq_comm Iff.rfl
  | managedRoot d =>
      rw [v1_errorsIsGo_managedRoot_of_none d t ht, ErrmgtV1.chain]
      simp only [decide_eq_true_eq, List.mem_singleton]
      exact eq_comm

/-! ## Lemmas about the context container -/

theorem v1_withContext_isSome (e : ErrmgtV1.ManagedError) (k v : String) :
    ((e.WithContext k v).Context).isSome = true := by
  cases h : e.Context <;> simp [ErrmgtV1.ManagedError.WithContext, h]

theorem v1_applyMutation_isSome (e : ErrmgtV1.ManagedError) (m : ErrmgtV1.Mutation)
    (h : e.Context.isSome = true) :
    ((ErrmgtV1.applyMutation e m).Context).isSome = true := by
  cases m with
  | details s => exact h
  | context k v => exact v1_withContext_isSome e k v
  | retryable b => exact h
  | statusCode n => exact h

theorem v1_applyMutations_isSome (e : ErrmgtV1.ManagedError)
    (ms : List ErrmgtV1.Mutation) (h : e.Context.isSome = true) :
    ((ErrmgtV1.applyMutations e ms).Context).isSome = true := by
  induction ms generalizing e with
  | nil => exact h
  | cons m rest ih =>
      have hstep : ErrmgtV1.applyMutations e (m :: rest) =
          ErrmgtV1.applyMutations (ErrmgtV1.applyMutation e m) rest := rfl
      rw [hstep]
      exact ih _ (v1_applyMutation_isSome e m h)

theorem s_applyWithContexts_isSome (e : Errmgt.ManagedError)
    (kvs : List (String × GoVal)) (h : e.Context.isSome = true) :
    ∃ e', Errmgt.applyWithContexts e kvs = some e' ∧ e'.Context.isSome = true := by
  induction kvs generalizing e with
  | nil => exact ⟨e, rfl, h⟩
  | cons kv rest ih =>
      obtain ⟨k, v⟩ := kv
      obtain ⟨m, hm⟩ := Option.isSome_iff_exists.mp h
      have hw : e.WithContext k v =
          some { e with Context := some (mapUpsert m k v) } := by
        simp [Errmgt.ManagedError.WithContext, hm]
      have hstep : Errmgt.applyWithContexts e ((k, v) :: rest) =
          Errmgt.applyWithContexts { e with Context := some (mapUpsert m k v) } rest := by
        rw [Errmgt.applyWithContexts, hw]
      rw [hstep]
      exact ih _ rfl

/-! ## The claims -/

/-- Claim C1: `Error()` is deterministic (it is a pure function of the
fields) and follows the canonical layout.  In the richer variant the
bracketed kind tag is `[<kind>:<code>]` and the output is
`"[<kind>:<code>] <message>"` with `": <details>"` appended exactly when
`details` is non-empty (the cause is never rendered there); in the simpler,
details-less variant the tag is `[<kind>]` and `": <cause.Error()>"` is
appended exactly when a cause is present.  For a non-empty message the
rendering contains the literal message text and starts with the bracketed
kind tag. -/
theorem c1_render_canonical_layout :
    (∀ e : ErrmgtV1.ManagedError, e.Details = "" →
      e.Error = "[" ++ e.Type_ ++ ":" ++ e.Code ++ "] " ++ e.Message) ∧
    (∀ e : ErrmgtV1.ManagedError, e.Details ≠ "" →
      e.Error = "[" ++ e.Type_ ++ ":" ++ e.Code ++ "] " ++ e.Message ++ ": " ++ e.Details) ∧
    (∀ e : Errmgt.ManagedError, e.Cause = none →
      e.Error = "[" ++ Errmgt.errorTypeString e.Type_ ++ "] " ++ e.Message) ∧
    (∀ (e : Errmgt.ManagedError) (c : Errmgt.GoError), e.Cause = some c →
      e.Error = "[" ++ Errmgt.errorTypeString e.Type_ ++ "] " ++ e.Message ++ ": " ++ c.Error) ∧
    (∀ e : ErrmgtV1.ManagedError, e.Message ≠ "" →
      (∃ pre suf, e.Error.data = pre ++ (e.Message.data ++ suf)) ∧
      (∃ rest, e.Error.data = ("[" ++ e.Type_ ++ ":" ++ e.Code ++ "] ").data ++ rest)) ∧
    (∀ e : Errmgt.ManagedError, e.Message ≠ "" →
      (∃ pre suf, e.Error.data = pre ++ (e.Message.data ++ suf)) ∧
      (∃ rest, e.Error.data = ("[" ++ Errmgt.errorTypeString e.Type_ ++ "] ").data ++ rest)) := by
  refine ⟨?_, ?_, ?_, ?_, ?_, ?_⟩
  · intro e h
    simp [ErrmgtV1.ManagedError.Error, h]
  · intro e h
    simp [ErrmgtV1.ManagedError.Error, h]
  · intro e h
    simp [Errmgt.ManagedError.Error, h]
  · intro e c h
    simp [Errmgt.ManagedError.Error, h]
  · intro e _
    by_cases hd : e.Details = ""
    · constructor
      · exact ⟨("[" ++ e.Type_ ++ ":" ++ e.Code ++ "] ").data, [],
          by simp [ErrmgtV1.ManagedError.Error, hd, String.data_append]⟩
      · exact ⟨e.Message.data,
          by simp [ErrmgtV1.ManagedError.Error, hd, String.data_append]⟩
    · constructor
      · exact ⟨("[" ++ e.Type_ ++ ":" ++ e.Code ++ "] ").data, (": " ++ e.Details).data,
          by simp [ErrmgtV1.ManagedError.Error, hd, String.data_append]⟩
      · exact ⟨(e.Message ++ ": " ++ e.Details).data,
          by simp [ErrmgtV1.ManagedError.Error, hd, String.data_append]⟩
  · intro e _
    cases hc : e.Cause with
    | none =>
        constructor
        · exact ⟨("[" ++ Errmgt.errorTypeString e.Type_ ++ "] ").data, [],
            by simp [Errmgt.ManagedError.Error, hc, String.data_append]⟩
        · exact ⟨e.Message.data,
            by simp [Errmgt.ManagedError.Error, hc, String.data_append]⟩
    | some c =>
        constructor
        · exact ⟨("[" ++ Errmgt.errorTypeString e.Type_ ++ "] ").data, (": " ++ c.Error).data,
            by simp [Errmgt.ManagedError.Error, hc, String.data_append]⟩
        · exact ⟨(e.Message ++ ": " ++ c.Error).data,
            by simp [Errmgt.ManagedError.Error, hc, String.data_append]⟩

/-- Claim C1 witness: the layout theorem evaluated at the repository's own
example errors. -/
theorem c1_witness :
    (ErrmgtV1.NewError "validation" "invalid_email" "Invalid email format").Error =
      "[validation:invalid_email] Invalid email format" ∧
    ((ErrmgtV1.NewError "validation" "invalid_email" "Invalid email format").WithDetails
        "Email must contain @ symbol").Error =
      "[validation:invalid_email] Invalid email format: Email must contain @ symbol" ∧
    (Errmgt.New Errmgt.ValidationError "email is required").Error =
      "[ValidationError] email is required" ∧
    (Errmgt.Wrap (some (Errmgt.GoError.errorString 0 "connection timeout"))
        Errmgt.ExternalError "failed to connect to API").Error =
      "[ExternalError] failed to connect to API: connection timeout" ∧
    (∃ pre suf,
      (ErrmgtV1.NewError "validation" "invalid_email" "Invalid email format").Error.data =
        pre ++ ("Invalid email format".data ++ suf)) ∧
    (∃ pre suf,
      (Errmgt.New Errmgt.ValidationError "email is required").Error.data =
        pre ++ ("email is required".data ++ suf)) := by
  obtain ⟨h1, h2, h3, h4, h5, h6⟩ := c1_render_canonical_layout
  refine ⟨?_, ?_, ?_, ?_, ?_, ?_⟩
  · rw [h1 _ rfl]
    rfl
  · rw [h2 _ (by decide)]
    rfl
  · rw [h3 _ rfl]
    rfl
  · rw [h4 _ _ rfl]
    rfl
  · exact (h5 _ (by decide)).1
  · exact (h6 _ (by decide)).1

/-- Claim C2: `IsRetryable` is total over arbitrary errors (it is a total
function of the embedding and never fails): it returns `false` on a nil
error and on every error whose `Unwrap` chain contains no `*ManagedError`;
when the chain does contain one it returns the first such error's
`Retryable` flag (`errorsAsManaged` is exactly the first managed element of
the chain); and `NewError(k,c,m).WithRetryable(true)` is retryable. -/
theorem c2_isRetryable_total :
    ErrmgtV1.IsRetryable none = false ∧
    (∀ err : ErrmgtV1.GoError,
      (∀ e ∈ ErrmgtV1.chain err, ErrmgtV1.isManagedErr e = false) →
      ErrmgtV1.IsRetryable (some err) = false) ∧
    (∀ (err : ErrmgtV1.GoError) (m : ErrmgtV1.ManagedError),
      ErrmgtV1.errorsAsManaged err = some m →
      ErrmgtV1.IsRetryable (some err) = m.Retryable) ∧
    (∀ err : ErrmgtV1.GoError, ErrmgtV1.errorsAsManaged err =
      (ErrmgtV1.chain err).findSome? ErrmgtV1.topManaged) ∧
    (∀ (ty : ErrmgtV1.ErrorType) (code msg : String),
      ErrmgtV1.IsRetryable
        (some (((ErrmgtV1.NewError ty code msg).WithRetryable true).toErr)) = true) := by
  refine ⟨rfl, ?_, ?_, v1_errorsAsManaged_eq_findSome, ?_⟩
  · intro err h
    have hnone : ErrmgtV1.errorsAsManaged err = none :=
      (v1_errorsAsManaged_eq_none_iff err).mpr h
    simp [ErrmgtV1.IsRetryable, ErrmgtV1.errorsAs, hnone]
  · intro err m h
    simp [ErrmgtV1.IsRetryable, ErrmgtV1.errorsAs, h]
  · intro ty code msg
    rfl

/-- Claim C2 witness: `IsRetryable` evaluated on a plain opaque error and
on a fresh managed error. -/
theorem c2_witness :
    ErrmgtV1.IsRetryable (some (ErrmgtV1.GoError.errorString 0 "regular error")) = false ∧
    ErrmgtV1.IsRetryable
      (some ((ErrmgtV1.NewError "validation" "invalid_input" "Invalid input").toErr)) = false := by
  obtain ⟨-, h2, h3, -, -⟩ := c2_isRetryable_total
  refine ⟨h2 _ ?_, ?_⟩
  · intro e he
    have : e = ErrmgtV1.GoError.errorString 0 "regular error" := by
      simpa [ErrmgtV1.chain] using he
    rw [this]
    rfl
  · exact (h3 _ _ (v1_errorsAsManaged_toErr
      (ErrmgtV1.NewError "validation" "invalid_input" "Invalid input"))).trans rfl

/-- Claim C3: the `Is` equivalence between two Managed Errors holds exactly
when both `Type` and `Code` match, irrespective of message, details or
context (the general equation mentions only those two fields); same
kind and code with different messages are equivalent, while a kind or a
code mismatch breaks equivalence. -/
theorem c3_loose_equivalence :
    (∀ e1 e2 : ErrmgtV1.ManagedError,
      e1.Is (some e2.toErr) = (e1.Type_ == e2.Type_ && e1.Code == e2.Code)) ∧
    (∀ m1 m2 : String,
      (ErrmgtV1.NewError ErrmgtV1.ValidationError "invalid_email" m1).Is
        (some (ErrmgtV1.NewError ErrmgtV1.ValidationError "invalid_email" m2).toErr) = true) ∧
    (ErrmgtV1.NewError ErrmgtV1.ValidationError "invalid_email" "x").Is
      (some (ErrmgtV1.NewError ErrmgtV1.BusinessError "invalid_email" "x").toErr) = false ∧
    (ErrmgtV1.NewError ErrmgtV1.ValidationError "invalid_email" "x").Is
      (some (ErrmgtV1.NewError ErrmgtV1.ValidationError "invalid_phone" "x").toErr) = false := by
  refine ⟨?_, ?_, ?_, ?_⟩
  · intro e1 e2
    simp [ErrmgtV1.ManagedError.Is, v1_errorsAsManaged_toErr]
  · intro m1 m2
    rfl
  · rfl
  · rfl

/-- Claim C4: `GetContext` is total and distinguishes absence from
emptiness: on a nil error and on every error whose chain holds no
`*ManagedError` it returns the nil map `none` (never the empty map
`some []`); when the chain holds one it returns the first such error's
context mapping verbatim — in particular a fresh managed error with empty
context yields `some []`, distinguishable from `none`. -/
theorem c4_getContext_absent_vs_empty :
    ErrmgtV1.GetContext none = none ∧
    (∀ err : ErrmgtV1.GoError,
      (∀ e ∈ ErrmgtV1.chain err, ErrmgtV1.isManagedErr e = false) →
      ErrmgtV1.GetContext (some err) = none) ∧
    (∀ (err : ErrmgtV1.GoError) (m : ErrmgtV1.ManagedError),
      ErrmgtV1.errorsAsManaged err = some m →
      ErrmgtV1.GetContext (some err) = m.Context) ∧
    (∀ (ty : ErrmgtV1.ErrorType) (code msg : String),
      ErrmgtV1.GetContext (some ((ErrmgtV1.NewError ty code msg).toErr)) =
        some ([] : ErrmgtV1.Ctx)) := by
  refine ⟨rfl, ?_, ?_, ?_⟩
  · intro err h
    have hnone : ErrmgtV1.errorsAsManaged err = none :=
      (v1_errorsAsManaged_eq_none_iff err).mpr h
    simp [ErrmgtV1.GetContext, ErrmgtV1.errorsAs, hnone]
  · intro err m h
    simp [ErrmgtV1.GetContext, ErrmgtV1.errorsAs, h]
  · intro ty code msg
    rfl

/-- Claim C4 witness: `GetContext` on a plain opaque error versus on a
fresh managed error with an (initialized but empty) context. -/
theorem c4_witness :
    ErrmgtV1.GetContext (some (ErrmgtV1.GoError.errorString 0 "regular error")) = none ∧
    ErrmgtV1.GetContext
      (some ((ErrmgtV1.NewError "system" "db_error" "Database error").toErr)) =
        some ([] : ErrmgtV1.Ctx) := by
  obtain ⟨-, h2, -, h4⟩ := c4_getContext_absent_vs_empty
  refine ⟨h2 _ ?_, h4 "system" "db_error" "Database error"⟩
  intro e he
  have : e = ErrmgtV1.GoError.errorString 0 "regular error" := by
    simpa [ErrmgtV1.chain] using he
  rw [this]
  rfl

/-- Claim C5 counterexample: the claim says no construction path yields an
empty message, but `NewError` stores the caller's message verbatim, so an
empty argument produces a managed error whose message is empty. -/
theorem c5_counterexample :
    (ErrmgtV1.NewError ErrmgtV1.ValidationError "invalid_email" "").Message = "" := rfl

/-- Claim C5 (amended): the constructors (`New`, `NewError`,
`NewErrorWithCause`) store the caller's message verbatim and never
invent or erase emptiness: the constructed error's message is non-empty
exactly when the message argument is non-empty.  No constructor validates
non-emptiness, so the spec's invariant is a caller obligation, not a
property enforced by construction. -/
theorem c5_message_verbatim :
    (∀ (ty : ErrmgtV1.ErrorType) (code msg : String) (cause : Option ErrmgtV1.GoError),
      (ErrmgtV1.NewError ty code msg).Message = msg ∧
      (ErrmgtV1.NewErrorWithCause ty code msg cause).Message = msg) ∧
    (∀ (t : Errmgt.ErrorType) (msg : String), (Errmgt.New t msg).Message = msg) ∧
    (∀ (ty : ErrmgtV1.ErrorType) (code msg : String) (cause : Option ErrmgtV1.GoError),
      msg ≠ "" →
      (ErrmgtV1.NewError ty code msg).Message ≠ "" ∧
      (ErrmgtV1.NewErrorWithCause ty code msg cause).Message ≠ "") ∧
    (∀ (t : Errmgt.ErrorType) (msg : String), msg ≠ "" →
      (Errmgt.New t msg).Message ≠ "") := by
  refine ⟨fun ty code msg cause => ⟨rfl, rfl⟩, fun t msg => rfl, ?_, ?_⟩
  · intro ty code msg cause h
    exact ⟨h, h⟩
  · intro t msg h
    exact h

/-- Claim C5 witness: non-empty arguments yield non-empty messages. -/
theorem c5_witness :
    (ErrmgtV1.NewError "validation" "invalid_email" "Email format is invalid").Message ≠ "" ∧
    (Errmgt.New Errmgt.ValidationError "email is required").Message ≠ "" := by
  obtain ⟨-, -, h3, h4⟩ := c5_message_verbatim
  exact ⟨(h3 "validation" "invalid_email" "Email format is invalid" none (by decide)).1,
    h4 Errmgt.ValidationError "email is required" (by decide)⟩

/-- Claim C6: for every error `err` and message `m`, `Wrap(err, m)` renders
as `"<m>: <err.Error()>"` and its `Unwrap` chain reaches `err` (both as
chain membership and through `errors.Is`); `Wrapf` behaves identically with
the message built by substituting the positional arguments into the format
template. -/
theorem c6_wrap_rendering_and_chain :
    ∀ (err : ErrmgtV1.GoError) (msg : String),
      (ErrmgtV1.Wrap err msg).Error = msg ++ ": " ++ err.Error ∧
      err ∈ ErrmgtV1.chain (ErrmgtV1.Wrap err msg) ∧
      ErrmgtV1.errorsIs (some (ErrmgtV1.Wrap err msg)) err = true ∧
      ∀ (format : String) (args : List GoVal),
        (ErrmgtV1.Wrapf err format args).Error =
          goSprintf format args ++ ": " ++ err.Error ∧
        err ∈ ErrmgtV1.chain (ErrmgtV1.Wrapf err format args) ∧
        ErrmgtV1.errorsIs (some (ErrmgtV1.Wrapf err format args)) err = true := by
  intro err msg
  have hmem : ∀ p : String, err ∈ ErrmgtV1.chain (ErrmgtV1.GoError.wrapped p err) := by
    intro p
    rw [ErrmgtV1.chain]
    exact List.mem_cons_of_mem _ (v1_mem_chain_self err)
  have his : ∀ p : String,
      ErrmgtV1.errorsIsGo (ErrmgtV1.GoError.wrapped p err) err = true := by
    intro p
    have h1 : ErrmgtV1.errorsIsGo (ErrmgtV1.GoError.wrapped p err) err =
        (decide (ErrmgtV1.GoError.wrapped p err = err) ||
          ErrmgtV1.errorsIsGo err err) := rfl
    rw [h1, v1_errorsIsGo_self err, Bool.or_true]
  exact ⟨rfl, hmem msg, his msg,
    fun format args => ⟨rfl, hmem (goSprintf format args), his (goSprintf format args)⟩⟩

/-- Claim C7: the cause round-trips through construction verbatim:
`NewErrorWithCause(k, c, m, cause).Unwrap()` is the very same `cause`
(also visible to `errors.Unwrap` on the error value), and `Unwrap` on an
error constructed without a cause is nil. -/
theorem c7_unwrap_roundtrip :
    (∀ (ty : ErrmgtV1.ErrorType) (code msg : String) (cause : ErrmgtV1.GoError),
      (ErrmgtV1.NewErrorWithCause ty code msg (some cause)).Unwrap = some cause) ∧
    (∀ (ty : ErrmgtV1.ErrorType) (code msg : String) (cause : Option ErrmgtV1.GoError),
      (ErrmgtV1.NewErrorWithCause ty code msg cause).Unwrap = cause) ∧
    (∀ (ty : ErrmgtV1.ErrorType) (code msg : String),
      (ErrmgtV1.NewError ty code msg).Unwrap = none) ∧
    (∀ (ty : ErrmgtV1.ErrorType) (code msg : String) (cause : ErrmgtV1.GoError),
      ErrmgtV1.goUnwrap ((ErrmgtV1.NewErrorWithCause ty code msg (some cause)).toErr) =
        some cause) :=
  ⟨fun _ _ _ _ => rfl, fun _ _ _ _ => rfl, fun _ _ _ => rfl, fun _ _ _ _ => rfl⟩

/-- Claim C8: both constructors initialize the context to the empty (non-nil)
mapping, and after any sequence of fluent mutations the context of a
constructor-produced managed error is still non-nil, so context writes and
lookups never hit a missing container (in the simpler variant a whole
`WithContext` chain runs without the nil-map panic). -/
theorem c8_context_always_initialized :
    (∀ (ty : ErrmgtV1.ErrorType) (code msg : String),
      (ErrmgtV1.NewError ty code msg).Context = some []) ∧
    (∀ (ty : ErrmgtV1.ErrorType) (code msg : String) (cause : Option ErrmgtV1.GoError),
      (ErrmgtV1.NewErrorWithCause ty code msg cause).Context = some []) ∧
    (∀ (ty : ErrmgtV1.ErrorType) (code msg : String) (ms : List ErrmgtV1.Mutation),
      ((ErrmgtV1.applyMutations (ErrmgtV1.NewError ty code msg) ms).Context).isSome = true) ∧
    (∀ (ty : ErrmgtV1.ErrorType) (code msg : String) (cause : Option ErrmgtV1.GoError)
        (ms : List ErrmgtV1.Mutation),
      ((ErrmgtV1.applyMutations (ErrmgtV1.NewErrorWithCause ty code msg cause) ms).Context).isSome
        = true) ∧
    (∀ (t : Errmgt.ErrorType) (msg : String), (Errmgt.New t msg).Context = some []) ∧
    (∀ (t : Errmgt.ErrorType) (msg : String) (kvs : List (String × GoVal)),
      ∃ e', Errmgt.applyWithContexts (Errmgt.New t msg) kvs = some e' ∧
        e'.Context.isSome = true) := by
  refine ⟨fun ty code msg => rfl, fun ty code msg cause => rfl, ?_, ?_,
    fun t msg => rfl, ?_⟩
  · intro ty code msg ms
    exact v1_applyMutations_isSome _ ms rfl
  · intro ty code msg cause ms
    exact v1_applyMutations_isSome _ ms rfl
  · intro t msg kvs
    exact s_applyWithContexts_isSome _ kvs rfl

/-- Claim C9: context upsert is last-write-wins in both variants: after
`WithContext(k, v₁)` then `WithContext(k, v₂)` on a managed error whose
context is a well-formed Go map, the resulting context holds exactly one
entry for `k`, that entry holds the latest value `v₂`, and lookups under
every other key are unchanged (in the simpler variant both calls also
succeed, i.e. no nil-map panic). -/
theorem c9_context_last_write_wins :
    (∀ (e : ErrmgtV1.ManagedError) (k v1 v2 : String), ctxWF e.Context →
      ∃ m2 : ErrmgtV1.Ctx,
        ((e.WithContext k v1).WithContext k v2).Context = some m2 ∧
        m2.countP (fun p => p.1 == k) = 1 ∧
        mapGet m2 k = some v2 ∧
        ∀ k', k' ≠ k → mapGet m2 k' = mapGet (e.Context.getD []) k') ∧
    (∀ (e : Errmgt.ManagedError) (k : String) (w1 w2 : GoVal) (m : Errmgt.Ctx),
      e.Context = some m → keysNodup m →
      ∃ (e1 e2 : Errmgt.ManagedError) (m2 : Errmgt.Ctx),
        e.WithContext k w1 = some e1 ∧
        e1.WithContext k w2 = some e2 ∧
        e2.Context = some m2 ∧
        m2.countP (fun p => p.1 == k) = 1 ∧
        mapGet m2 k = some w2 ∧
        ∀ k', k' ≠ k → mapGet m2 k' = mapGet m k') := by
  constructor
  · intro e k v1 v2 hwf
    cases hc : e.Context with
    | none =>
        have h1 : e.WithContext k v1 =
            { e with Context := some (mapUpsert [] k v1) } := by
          simp [ErrmgtV1.ManagedError.WithContext, hc]
        have h2 : (e.WithContext k v1).WithContext k v2 =
            { e with Context := some (mapUpsert (mapUpsert [] k v1) k v2) } := by
          rw [h1]
          simp [ErrmgtV1.ManagedError.WithContext]
        refine ⟨mapUpsert (mapUpsert [] k v1) k v2, by rw [h2], ?_, ?_, ?_⟩
        · exact countP_upsert_self _ k v2
            (le_of_eq (countP_upsert_self _ k v1 (by simp)))
        · exact mapGet_upsert_self _ k v2
        · intro k' hk'
          rw [mapGet_upsert_other _ k k' v2 hk', mapGet_upsert_other _ k k' v1 hk']
          rfl
    | some m0 =>
        rw [hc] at hwf
        have hnodup : keysNodup m0 := hwf
        have h1 : e.WithContext k v1 =
            { e with Context := some (mapUpsert m0 k v1) } := by
          simp [ErrmgtV1.ManagedError.WithContext, hc]
        have h2 : (e.WithContext k v1).WithContext k v2 =
            { e with Context := some (mapUpsert (mapUpsert m0 k v1) k v2) } := by
          rw [h1]
          simp [ErrmgtV1.ManagedError.WithContext]
        refine ⟨mapUpsert (mapUpsert m0 k v1) k v2, by rw [h2], ?_, ?_, ?_⟩
        · exact countP_upsert_self _ k v2
            (le_of_eq (countP_upsert_self _ k v1 (countP_le_one_of_keysNodup m0 hnodup k)))
        · exact mapGet_upsert_self _ k v2
        · intro k' hk'
          rw [mapGet_upsert_other _ k k' v2 hk', mapGet_upsert_other _ k k' v1 hk']
          rfl
  · intro e k w1 w2 m hc hnodup
    have h1 : e.WithContext k w1 =
        some { e with Context := some (mapUpsert m k w1) } := by
      simp [Errmgt.ManagedError.WithContext, hc]
    have h2 : ({ e with Context := some (mapUpsert m k w1) } :
        Errmgt.ManagedError).WithContext k w2 =
        some { e with Context := some (mapUpsert (mapUpsert m k w1) k w2) } := by
      simp [Errmgt.ManagedError.WithContext]
    refine ⟨_, _, mapUpsert (mapUpsert m k w1) k w2, h1, h2, rfl, ?_, ?_, ?_⟩
    · exact countP_upsert_self _ k w2
        (le_of_eq (countP_upsert_self _ k w1 (countP_le_one_of_keysNodup m hnodup k)))
    · exact mapGet_upsert_self _ k w2
    · intro k' hk'
      rw [mapGet_upsert_other _ k k' w2 hk', mapGet_upsert_other _ k k' w1 hk']

/-- Claim C9 witness: the double-upsert theorem evaluated on fresh managed
errors of both variants with key `"a"` and values `"1"` then `"2"`. -/
theorem c9_witness :
    (∃ m2 : ErrmgtV1.Ctx,
      (((ErrmgtV1.NewError "validation" "c" "m").WithContext "a" "1").WithContext
          "a" "2").Context = some m2 ∧
      m2.countP (fun p => p.1 == "a") = 1 ∧
      mapGet m2 "a" = some "2" ∧
      ∀ k', k' ≠ "a" → mapGet m2 k' =
        mapGet (((ErrmgtV1.NewError "validation" "c" "m").Context).getD []) k') ∧
    (∃ (e1 e2 : Errmgt.ManagedError) (m2 : Errmgt.Ctx),
      (Errmgt.New Errmgt.ValidationError "m").WithContext "a" (GoVal.vstr "1") = some e1 ∧
      e1.WithContext "a" (GoVal.vstr "2") = some e2 ∧
      e2.Context = some m2 ∧
      m2.countP (fun p => p.1 == "a") = 1 ∧
      mapGet m2 "a" = some (GoVal.vstr "2") ∧
      ∀ k', k' ≠ "a" → mapGet m2 k' = mapGet ([] : Errmgt.Ctx) k') := by
  obtain ⟨h1, h2⟩ := c9_context_last_write_wins
  exact ⟨h1 (ErrmgtV1.NewError "validation" "c" "m") "a" "1" "2"
      ((by simp [ctxWF, keysNodup] : ctxWF (some ([] : ErrmgtV1.Ctx)))),
    h2 (Errmgt.New Errmgt.ValidationError "m") "a" (GoVal.vstr "1") (GoVal.vstr "2")
      [] rfl (by simp [keysNodup])⟩

/-- Claim C10: the richer variant's `Is` falls back to the cause chain for
non-managed targets: `e.Is(nil)` is always false, and whenever the target
`t` neither is nor wraps a `*ManagedError` (`errors.As` finds none in it),
`e.Is(t)` holds exactly when `t` occurs in the chain of `e`'s cause — so in
particular a managed error constructed around a non-managed cause compares
equal to that very cause. -/
theorem c10_is_falls_back_to_cause_chain :
    (∀ e : ErrmgtV1.ManagedError, e.Is none = false) ∧
    (∀ (e : ErrmgtV1.ManagedError) (t : ErrmgtV1.GoError),
      ErrmgtV1.errorsAsManaged t = none →
      (e.Is (some t) = true ↔ ∃ c, e.Cause = some c ∧ t ∈ ErrmgtV1.chain c)) ∧
    (∀ (ty : ErrmgtV1.ErrorType) (code msg : String) (t : ErrmgtV1.GoError),
      ErrmgtV1.errorsAsManaged t = none →
      (ErrmgtV1.NewErrorWithCause ty code msg (some t)).Is (some t) = true) := by
  refine ⟨fun e => rfl, ?_, ?_⟩
  · intro e t ht
    have hIs : e.Is (some t) = ErrmgtV1.errorsIs e.Cause t := by
      simp [ErrmgtV1.ManagedError.Is, ht]
    rw [hIs]
    cases hc : e.Cause with
    | none => simp [ErrmgtV1.errorsIs]
    | some c => simp [ErrmgtV1.errorsIs, v1_errorsIsGo_eq_mem_chain t ht c]
  · intro ty code msg t ht
    have hIs : (ErrmgtV1.NewErrorWithCause ty code msg (some t)).Is (some t) =
        ErrmgtV1.errorsIsGo t t := by
      simp [ErrmgtV1.ManagedError.Is, ht, ErrmgtV1.errorsIs, ErrmgtV1.NewErrorWithCause]
    rw [hIs]
    exact v1_errorsIsGo_self t

/-- Claim C10 witness: a managed error wrapping a plain opaque cause
compares `Is`-equal to that cause, both via the direct corollary and via
the chain-membership characterization. -/
theorem c10_witness :
    (ErrmgtV1.NewErrorWithCause "system" "db_error" "Database error"
        (some (ErrmgtV1.GoError.errorString 1 "underlying error"))).Is
      (some (ErrmgtV1.GoError.errorString 1 "underlying error")) = true ∧
    (ErrmgtV1.NewErrorWithCause "external" "api" "call failed"
        (some (ErrmgtV1.GoError.errorString 2 "timeout"))).Is
      (some (ErrmgtV1.GoError.errorString 2 "timeout")) = true := by
  obtain ⟨-, h2, h3⟩ := c10_is_falls_back_to_cause_chain
  refine ⟨h3 "system" "db_error" "Database error" _ rfl, ?_⟩
  exact (h2 (ErrmgtV1.NewErrorWithCause "external" "api" "call failed"
      (some (ErrmgtV1.GoError.errorString 2 "timeout")))
      (ErrmgtV1.GoError.errorString 2 "timeout") rfl).mpr
    ⟨ErrmgtV1.GoError.errorString 2 "timeout", rfl, by simp [ErrmgtV1.chain]⟩
